import Mathlib

/-!
# Verification of the audio generation and caching pipeline (src/api/audio.py)

This file gives a shallow embedding of the core of the repository's audio
pipeline and proves/refutes the frozen claims about it.

Embedded from `src/api/audio.py` (and `src/api/_storage.py`):
* `clean_text_for_tts` — the six sequential `re.sub` passes, modelled as
  character-list scanners with the exact leftmost/greedy semantics of the
  patterns involved;
* `split_content_into_chunks` — newline normalization, the `(?m)^##\s+(.+)$`
  heading finder, intro/section/full_content chunk assembly;
* `get_or_generate_audio`, `generate_chunk_audio`,
  `generate_or_get_full_audio` — modelled over an environment providing the
  blob-store contents, write outcomes and per-call synthesis outcomes
  (`StorageClient.read_file` returning bytes on HTTP 200 — possibly empty —
  and raising `StorageError` otherwise is modelled as `Option (List Nat)`);
* the `file_lock` context manager together with `asyncio.Lock` semantics,
  as a small-step transition system over explicit lock objects.

Bytes are modelled as `List Nat`; byte values are irrelevant to every claim,
only emptiness, equality and concatenation matter.
-/

deriving instance DecidableEq for Except

/-- ASCII approximation of Python's `\s` / `str.strip()` whitespace class. -/
def pySpace (c : Char) : Bool :=
  c == ' ' || c == '\t' || c == '\n' || c == '\r' || c == '\x0b' || c == '\x0c'

/-- Python `str.strip()` on a character list. -/
def pyStripL (l : List Char) : List Char :=
  ((l.dropWhile pySpace).reverse.dropWhile pySpace).reverse

/-- Python `str.strip()`. -/
def pyStrip (s : String) : String := String.mk (pyStripL s.toList)

/-- One leftmost non-overlapping rewrite pass, the semantics of `re.sub`:
at each position try the matcher; on a match emit its replacement and resume
after the match, otherwise keep one character and advance.  The fuel argument
(always instantiated with more than the list length, each step consumes at
least one character) keeps the recursion structural so that terms reduce in
the kernel. -/
def scanF (m : List Char → Option (List Char × List Char)) :
    Nat → List Char → List Char
  | 0, l => l
  | _ + 1, [] => []
  | f + 1, c :: cs =>
    match m (c :: cs) with
    | some (out, after) => out ++ scanF m f after
    | none => c :: scanF m f cs

/-- Matcher for `\*\*|\*|__|\^` with replacement `""`
(`re.sub` pass 2 of `clean_text_for_tts`): alternatives tried in order,
single underscores are kept. -/
def emphasisMatch : List Char → Option (List Char × List Char)
  | '*' :: '*' :: rest => some ([], rest)
  | '*' :: rest => some ([], rest)
  | '_' :: '_' :: rest => some ([], rest)
  | '^' :: rest => some ([], rest)
  | _ => none

/-- Matcher for `\[([^\]]+)\]\([^)]+\)` with replacement `\1`
(`re.sub` pass 3): a markdown link is replaced by its display text. -/
def linkMatch : List Char → Option (List Char × List Char)
  | '[' :: rest =>
    let txt := rest.takeWhile (fun c => !(c == ']'))
    if txt.isEmpty then none
    else
      match rest.drop txt.length with
      | ']' :: '(' :: rest2 =>
        let url := rest2.takeWhile (fun c => !(c == ')'))
        if url.isEmpty then none
        else
          match rest2.drop url.length with
          | ')' :: after => some (txt, after)
          | _ => none
      | _ => none
  | _ => none

/-- Matcher for ``` ```[^`]*``` ``` with replacement `" "` (`re.sub` pass 4):
a fenced code block with no backtick inside collapses to one space. -/
def codeBlockMatch : List Char → Option (List Char × List Char)
  | '`' :: '`' :: '`' :: rest =>
    let body := rest.takeWhile (fun c => !(c == '`'))
    match rest.drop body.length with
    | '`' :: '`' :: '`' :: after => some ([' '], after)
    | _ => none
  | _ => none

/-- Matcher for `` `([^`]+)` `` with replacement `\1` (`re.sub` pass 5):
inline code collapses to its literal text. -/
def inlineCodeMatch : List Char → Option (List Char × List Char)
  | '`' :: rest =>
    let body := rest.takeWhile (fun c => !(c == '`'))
    if body.isEmpty then none
    else
      match rest.drop body.length with
      | '`' :: after => some (body, after)
      | _ => none
  | _ => none

/-- `re.sub(r"\s+", " ", s)` (first half of pass 6): collapse every
whitespace run to a single space.  The boolean flag records whether the
previous character belonged to a run already emitted. -/
def collapseAux : Bool → List Char → List Char
  | _, [] => []
  | inRun, c :: rest =>
    if pySpace c then
      if inRun then collapseAux true rest
      else ' ' :: collapseAux true rest
    else c :: collapseAux false rest

/-- Tail of the Python pattern `\s+(.+)$` (shared by the heading rewrite of
`clean_text_for_tts` and the `^##\s+(.+)$` finder of
`split_content_into_chunks`), applied to the text following the hash marks.
Returns the captured greedy group `(.+)` and the remainder after the match
end (which is either empty or starts at the `\n` terminating the matched
line).  Greedy `\s+` takes the maximal whitespace run; when everything that
follows is whitespace, backtracking leaves the last non-newline character as
the one-character group, provided at least one whitespace character precedes
it. -/
def matchHead (r : List Char) : Option (List Char × List Char) :=
  match r with
  | [] => none
  | c :: _ =>
    if !(pySpace c) then none
    else
      let t0 := r.dropWhile pySpace
      if t0.isEmpty then
        match r.reverse.dropWhile (fun ch => ch == '\n') with
        | [] => none
        | [_] => none
        | ch :: _ :: _ =>
          some ([ch], r.drop (r.reverse.dropWhile (fun ch => ch == '\n')).length)
      else
        let t := t0.takeWhile (fun ch => !(ch == '\n'))
        some (t, t0.drop t.length)

/-- `re.sub(r"^(#+)\s+(.+)$", r"\2. . . .", text, flags=re.MULTILINE)`
(pass 1): a heading line becomes its text followed by a pause marker.  The
scan proceeds line by line; `matchHead` supplies the `\s+(.+)$` tail
semantics after the greedy run of `#` characters. -/
def headingSubF : Nat → List Char → List Char
  | 0, l => l
  | _ + 1, [] => []
  | f + 1, c :: cs =>
    let l := c :: cs
    let hashes := l.takeWhile (fun ch => ch == '#')
    match
      (if hashes.isEmpty then none else matchHead (l.drop hashes.length)) with
    | some (t, rest) =>
      t ++ ". . . .".toList ++
        (match rest with
          | [] => []
          | '\n' :: rs => '\n' :: headingSubF f rs
          | other => other)
    | none =>
      let line := l.takeWhile (fun ch => !(ch == '\n'))
      match l.drop line.length with
      | [] => line
      | _ :: rest2 => line ++ '\n' :: headingSubF f rest2

/-- Pass 1 of `clean_text_for_tts`: rewrite markdown headings into text
followed by a spoken-pause marker. -/
def collapseHeadings (s : String) : String :=
  String.mk (headingSubF (s.toList.length + 1) s.toList)

/-- Pass 2: strip emphasis / strikethrough markers. -/
def stripEmphasis (s : String) : String :=
  String.mk (scanF emphasisMatch (s.toList.length + 1) s.toList)

/-- Pass 3: replace links with their display text, dropping the URL. -/
def convertLinks (s : String) : String :=
  String.mk (scanF linkMatch (s.toList.length + 1) s.toList)

/-- Pass 4: remove fenced code blocks (each becomes a single space). -/
def removeCodeBlocks (s : String) : String :=
  String.mk (scanF codeBlockMatch (s.toList.length + 1) s.toList)

/-- Pass 5: collapse inline code to its literal text. -/
def removeInlineCode (s : String) : String :=
  String.mk (scanF inlineCodeMatch (s.toList.length + 1) s.toList)

/-- Pass 6: collapse whitespace runs to single spaces and strip
(`re.sub(r"\s+", " ", s).strip()`). -/
def collapseWhitespace (s : String) : String :=
  String.mk (pyStripL (collapseAux false s.toList))

/-- `clean_text_for_tts` from `src/api/audio.py`: the six `re.sub` passes
applied in source order. -/
def clean_text_for_tts (text : String) : String :=
  collapseWhitespace
    (removeInlineCode (removeCodeBlocks (convertLinks
      (stripEmphasis (collapseHeadings text)))))

/-- `re.sub(r"\n\n+", "\n\n", content)`: collapse every run of two or more
newlines to exactly two (the normalization at the top of
`split_content_into_chunks`). -/
def normNlF : Nat → List Char → List Char
  | 0, l => l
  | _ + 1, [] => []
  | f + 1, '\n' :: '\n' :: rest =>
    '\n' :: '\n' :: normNlF f (rest.dropWhile (fun c => c == '\n'))
  | f + 1, c :: rest => c :: normNlF f rest

/-- Newline normalization entry point. -/
def normNl (l : List Char) : List Char := normNlF (l.length + 1) l

/-- `re.finditer(r"(?m)^##\s+(.+)$", content)`: every level-2 heading match,
as `(m.start(), m.group(1).strip())` pairs in document order, mirroring the
`headings` list of `split_content_into_chunks`.  A match must start at a
line start with exactly the two characters `##` followed by whitespace
(`###` fails because the third `#` is not whitespace); scanning resumes
after each match end. -/
def findH2F : Nat → List Char → Nat → List (Nat × List Char)
  | 0, _, _ => []
  | _ + 1, [], _ => []
  | f + 1, c :: cs, pos =>
    let l := c :: cs
    match (if l.take 2 = ['#', '#'] then matchHead (l.drop 2) else none) with
    | some (t, rest) =>
      (pos, pyStripL t) ::
        (match rest with
          | [] => []
          | '\n' :: rs => findH2F f rs (pos + (l.length - rs.length))
          | _ => [])
    | none =>
      let line := l.takeWhile (fun ch => !(ch == '\n'))
      match l.drop line.length with
      | [] => []
      | _ :: rest2 => findH2F f rest2 (pos + line.length + 1)

/-- Heading finder entry point (on the normalized content). -/
def findH2 (l : List Char) : List (Nat × List Char) := findH2F (l.length + 1) l 0

/-- One emitted chunk of `split_content_into_chunks`: the Python dict with
keys `id`, `text`, optional `title`, and `checksum`. -/
structure Chunk where
  id : String
  text : String
  title : Option String
  checksum : String
deriving DecidableEq

/-- ASCII `str.lower()` (kernel-reducible, unlike `String.toLower`). -/
def pyLowerChar (c : Char) : Char :=
  if 65 ≤ c.toNat ∧ c.toNat ≤ 90 then Char.ofNat (c.toNat + 32) else c

/-- Python `str.lower()` on ASCII text. -/
def pyLower (s : String) : String := String.mk (s.toList.map pyLowerChar)

/-- The `intro_prefix` construction of `split_content_into_chunks`:
`if title:` and `if description and description.lower() != "none":` are
Python truthiness tests, so empty strings are skipped; the fixed
attribution phrase is always appended. -/
def introAttribution (title description : Option String) : String :=
  (match title with
    | some t => if t ≠ "" then t ++ ". " else ""
    | none => "") ++
  (match description with
    | some d => if d ≠ "" ∧ pyLower d ≠ "none" then d ++ " " else ""
    | none => "") ++
  "by Evan Sims. . . . . "

/-- The heading-section loop of `split_content_into_chunks`: for heading
`i` the section text runs from its start to the next heading's start (or
the end of content), is stripped, sanitized, and emitted as
`section_<i>` with the heading title when the sanitized text has length at
least 3. -/
def sectionChunks (hash : String → String) (content : List Char) :
    Nat → List (Nat × List Char) → List Chunk
  | _, [] => []
  | i, (start, htitle) :: rest =>
    let endPos := match rest with
      | (s2, _) :: _ => s2
      | [] => content.length
    let sectionText := pyStripL ((content.drop start).take (endPos - start))
    (if sectionText ≠ [] then
      let cleanSection := clean_text_for_tts (String.mk sectionText)
      if 3 ≤ cleanSection.length then
        [⟨"section_" ++ toString i, cleanSection, some (String.mk htitle),
          hash cleanSection⟩]
      else []
    else []) ++ sectionChunks hash content (i + 1) rest

/-- `split_content_into_chunks` from `src/api/audio.py`, for a directly
supplied body (the `page_path` branch only delegates to the external content
provider to obtain `content`, `title` and `description`).  The checksum
function is a parameter standing for `hashlib.md5(·).hexdigest()`; every
claim depends only on which string is hashed, not on the digest itself. -/
def split_content_into_chunks (hash : String → String) (content : String)
    (title description : Option String) : List Chunk :=
  let c := normNl content.toList
  let hs := findH2 c
  let intro := introAttribution title description
  match hs with
  | [] =>
    if pyStripL c ≠ [] then
      let fullText := intro ++ String.mk (pyStripL c)
      let cleanContent := clean_text_for_tts fullText
      if 3 ≤ cleanContent.length then
        [⟨"full_content", cleanContent, none, hash cleanContent⟩]
      else []
    else []
  | (start0, _) :: _ =>
    (if 0 < start0 then
      let introText := intro ++ String.mk (pyStripL (c.take start0))
      if introText ≠ "" then
        let cleanIntro := clean_text_for_tts introText
        if 3 ≤ cleanIntro.length then
          [⟨"intro", cleanIntro, none, hash cleanIntro⟩]
        else []
      else []
    else []) ++ sectionChunks hash c 0 hs

/-- `os.path.join(audio_dir, f"{checksum}.mp3")` (`get_audio_path`), posix
join of a directory without trailing separator. -/
def get_audio_path (audio_dir checksum : String) : String :=
  audio_dir ++ "/" ++ checksum ++ ".mp3"

/-- `os.path.join(audio_dir, f"{page_slug}_full.mp3")`
(`get_full_audio_path`). -/
def get_full_audio_path (audio_dir page_slug : String) : String :=
  audio_dir ++ "/" ++ page_slug ++ "_full.mp3"

/-- `API_SEMAPHORE = asyncio.Semaphore(3)`: the number of permits of the
process-wide synthesis semaphore. -/
def apiSemaphoreLimit : Nat := 3

/-- `max_retries = 3` in `get_or_generate_audio`. -/
def maxRetries : Nat := 3

/-- Outcome of one call to `client.text_to_speech.convert` (after the
generator-to-bytes normalization): either an exception, or a byte buffer
(possibly empty). -/
inductive SynthOutcome where
  | err : SynthOutcome
  | ok : List Nat → SynthOutcome
deriving DecidableEq

/-- Observable events of one generation call, used to state which provider
calls happen while the `API_SEMAPHORE` is held. -/
inductive Ev where
  | readCache : Ev
  | semAcquire : Ev
  | semRelease : Ev
  | providerCall : Ev
  | writeStore : Ev
deriving DecidableEq

/-- The environment a generation call runs against.
`storage p = some b` models `StorageClient.read_file` returning `b` (HTTP
200, `b` may be empty — `read_file` returns `response.content` with no
emptiness check); `none` models it raising `StorageError` (404 and the other
failure branches).  `writeOk p = false` models `write_file` raising
`StorageError`; writes are all-or-nothing.  `synth k` is the outcome of the
`k`-th provider call made by the function.  `spath` models
`get_storage_path`, a pure path translation whose result depends on the
process filesystem layout (`os.path.abspath`/`relpath`). -/
structure Env where
  storage : String → Option (List Nat)
  writeOk : String → Bool
  synth : Nat → SynthOutcome
  spath : String → String

/-- Pointwise store update performed by a successful `write_file`. -/
def updateStore (st : String → Option (List Nat)) (p : String) (b : List Nat) :
    String → Option (List Nat) :=
  fun q => if q = p then some b else st q

/-- The body of one attempt of the retry loop in `get_or_generate_audio`:
the provider call either raises, or returns bytes that are rejected
(`raise ValueError`) when empty.  `none` means the attempt raised. -/
def synthAttemptResult (synth : Nat → SynthOutcome) (attempt : Nat) :
    Option (List Nat) :=
  match synth attempt with
  | SynthOutcome.err => none
  | SynthOutcome.ok b => if b = [] then none else some b

/-- Result of the retry loop: the bytes or the propagated final exception,
together with the `asyncio.sleep` delays in order, the number of provider
calls made, and the event trace (each attempt acquires and releases
`API_SEMAPHORE` around its provider call — `async with API_SEMAPHORE`
releases on both the success and the exception path). -/
structure RetryOut where
  res : Except Unit (List Nat)
  sleeps : List Nat
  calls : Nat
  evs : List Ev

/-- The `for attempt in range(max_retries)` loop of `get_or_generate_audio`
(lines 359-404): on a failed attempt that is not the last, sleep the current
`retry_delay` and retry with the delay doubled; on a failed last attempt
re-raise.  The first argument is the number of attempts still allowed
(`max_retries - attempt`); the `0` case is the loop's unreachable `else`
branch. -/
def synthRetryAux (synth : Nat → SynthOutcome) :
    Nat → Nat → Nat → RetryOut
  | 0, _, _ => ⟨Except.error (), [], 0, []⟩
  | remaining + 1, attempt, delay =>
    let attemptEvs := [Ev.semAcquire, Ev.providerCall, Ev.semRelease]
    match synthAttemptResult synth attempt with
    | some b => ⟨Except.ok b, [], 1, attemptEvs⟩
    | none =>
      if remaining = 0 then ⟨Except.error (), [], 1, attemptEvs⟩
      else
        let r := synthRetryAux synth remaining (attempt + 1) (delay * 2)
        ⟨r.res, delay :: r.sleeps, r.calls + 1, attemptEvs ++ r.evs⟩

/-- The retry loop entered at attempt 0 with `retry_delay = 1`. -/
def synthWithRetry (synth : Nat → SynthOutcome) : RetryOut :=
  synthRetryAux synth maxRetries 0 1

/-- Errors surfaced by the generation functions (all become `HTTPException`s
in the source; the taxonomy follows the spec's error kinds).
`synthesisUnavailable` is the error propagated when all retries are
exhausted, `synthesisFailed`/`emptyAudio` the single-attempt failures of
`generate_chunk_audio`, `storageWriteFailed` a non-swallowed `StorageError`
on write, `chunksIncomplete` the "Failed to generate all required audio
chunks" / chunk-read failure of `generate_or_get_full_audio`. -/
inductive GenError where
  | synthesisUnavailable : GenError
  | synthesisFailed : GenError
  | emptyAudio : GenError
  | storageWriteFailed : GenError
  | chunksIncomplete : GenError
deriving DecidableEq

/-- Result of `get_or_generate_audio`: the yielded bytes or the raised
error, the final store, the writes performed, the retry sleeps, provider
call count and event trace. -/
structure AudioGenOut where
  res : Except GenError (List Nat)
  store : String → Option (List Nat)
  writeLog : List (String × List Nat)
  sleeps : List Nat
  calls : Nat
  evs : List Ev

/-- The cache read of `get_or_generate_audio` (lines 337-345): a successful
non-empty read is a hit (`if audio_bytes: yield; return`); both
`StorageError` and an empty body fall through to generation. -/
def cacheLookup (st : String → Option (List Nat)) (sp : String) :
    Option (List Nat) :=
  match st sp with
  | some b => if b ≠ [] then some b else none
  | none => none

/-- `get_or_generate_audio` from `src/api/audio.py` (lines 333-428), run to
completion by a single caller (the `file_lock` discipline is modelled
separately).  The cache read treats both `StorageError` and an empty body
(`if audio_bytes:` is falsy) as a miss; on a successful synthesis the store
write swallows `StorageError` and the bytes are yielded regardless. -/
def get_or_generate_audio (env : Env) (audio_path : String) : AudioGenOut :=
  let sp := env.spath audio_path
  match cacheLookup env.storage sp with
  | some b => ⟨Except.ok b, env.storage, [], [], 0, [Ev.readCache]⟩
  | none =>
    let r := synthWithRetry env.synth
    match r.res with
    | Except.error _ =>
      ⟨Except.error GenError.synthesisUnavailable, env.storage, [], r.sleeps,
        r.calls, Ev.readCache :: r.evs⟩
    | Except.ok b =>
      if env.writeOk sp then
        ⟨Except.ok b, updateStore env.storage sp b, [(sp, b)], r.sleeps,
          r.calls, Ev.readCache :: r.evs ++ [Ev.writeStore]⟩
      else
        ⟨Except.ok b, env.storage, [], r.sleeps, r.calls,
          Ev.readCache :: r.evs⟩

/-- Result of `generate_chunk_audio` (which yields nothing). -/
structure ChunkGenOut where
  res : Except GenError Unit
  store : String → Option (List Nat)
  writeLog : List (String × List Nat)
  calls : Nat
  evs : List Ev

/-- `generate_chunk_audio` from `src/api/audio.py` (lines 515-570), with `k`
the index of the provider call it makes.  The cache check returns early on
ANY successful read — the read result is discarded, so a zero-length stored
artifact also counts as existing audio.  The single provider call is made
without acquiring `API_SEMAPHORE` and without the retry loop; empty bytes
raise; a failed write raises (`StorageError` is not swallowed here). -/
def generate_chunk_audio (env : Env) (k : Nat) (audio_path : String) :
    ChunkGenOut :=
  let sp := env.spath audio_path
  match env.storage sp with
  | some _ => ⟨Except.ok (), env.storage, [], 0, [Ev.readCache]⟩
  | none =>
    match env.synth k with
    | SynthOutcome.err =>
      ⟨Except.error GenError.synthesisFailed, env.storage, [], 1,
        [Ev.readCache, Ev.providerCall]⟩
    | SynthOutcome.ok b =>
      if b = [] then
        ⟨Except.error GenError.emptyAudio, env.storage, [], 1,
          [Ev.readCache, Ev.providerCall]⟩
      else if env.writeOk sp then
        ⟨Except.ok (), updateStore env.storage sp b, [(sp, b)], 1,
          [Ev.readCache, Ev.providerCall, Ev.writeStore]⟩
      else
        ⟨Except.error GenError.storageWriteFailed, env.storage, [], 1,
          [Ev.readCache, Ev.providerCall]⟩

/-- Accumulated outcome of the `asyncio.gather(*generation_tasks)` phase of
`generate_or_get_full_audio`. -/
structure MissingGenOut where
  store : String → Option (List Nat)
  writeLog : List (String × List Nat)
  calls : Nat
  evs : List Ev
  firstErr : Option GenError

/-- Run `generate_chunk_audio` for each scheduled missing path, threading
the store and the provider-call counter.  The concurrently gathered tasks
are sequentialized here; each holds its own path lock in the source, and no
claim depends on their interleaving.  A raised exception propagates out of
the gather (modelled as the first error). -/
def genMissing (env : Env) :
    List String → Nat → (String → Option (List Nat)) → MissingGenOut
  | [], _, st => ⟨st, [], 0, [], none⟩
  | p :: ps, k, st =>
    let o := generate_chunk_audio { env with storage := st } k p
    let r := genMissing env ps (k + o.calls) o.store
    ⟨r.store, o.writeLog ++ r.writeLog, o.calls + r.calls, o.evs ++ r.evs,
      (match o.res with
        | Except.error e => some e
        | Except.ok () => r.firstErr)⟩

/-- The "ensure all audio files exist" loop followed by the concatenation
loop of `generate_or_get_full_audio`: read every path in order; any
`StorageError` aborts, otherwise the result is the concatenation
`all_audio += chunk_audio` in path order.  A zero-length artifact read is a
successful read here (no emptiness check). -/
def readAll (st : String → Option (List Nat)) : List String → Option (List Nat)
  | [] => some []
  | p :: ps =>
    match st p, readAll st ps with
    | some b, some rest => some (b ++ rest)
    | _, _ => none

/-- Result of `generate_or_get_full_audio`: `(full_audio_path, size)` or the
raised error, plus final store, writes, provider calls and events. -/
structure FullGenOut where
  res : Except GenError (String × Nat)
  store : String → Option (List Nat)
  writeLog : List (String × List Nat)
  calls : Nat
  evs : List Ev

/-- `generate_or_get_full_audio` from `src/api/audio.py` (lines 431-512),
parametrized by the chunk list obtained from `split_content_into_chunks`
for the page.  An existing full-track read returns `(path, len)` even for a
zero-length body; otherwise the chunks whose artifact read raises
`StorageError` are generated, all chunk artifacts are re-read, their
concatenation in chunk order is written to the full-track path
unconditionally (no emptiness check), and `(path, len(all_audio))` is
returned. -/
def generate_or_get_full_audio (env : Env) (chunks : List Chunk)
    (audio_dir page_slug : String) : FullGenOut :=
  let full_path := get_full_audio_path audio_dir page_slug
  let spFull := env.spath full_path
  match env.storage spFull with
  | some b => ⟨Except.ok (full_path, b.length), env.storage, [], 0, [Ev.readCache]⟩
  | none =>
    let audio_paths := chunks.map (fun c => get_audio_path audio_dir c.checksum)
    let missing := audio_paths.filter (fun p => (env.storage (env.spath p)).isNone)
    let g := genMissing env missing 0 env.storage
    match g.firstErr with
    | some e => ⟨Except.error e, g.store, g.writeLog, g.calls, Ev.readCache :: g.evs⟩
    | none =>
      match readAll (fun p => g.store (env.spath p)) audio_paths with
      | none =>
        ⟨Except.error GenError.chunksIncomplete, g.store, g.writeLog, g.calls,
          Ev.readCache :: g.evs⟩
      | some allAudio =>
        if env.writeOk spFull then
          ⟨Except.ok (full_path, allAudio.length),
            updateStore g.store spFull allAudio,
            g.writeLog ++ [(spFull, allAudio)], g.calls,
            Ev.readCache :: g.evs ++ [Ev.writeStore]⟩
        else
          ⟨Except.error GenError.storageWriteFailed, g.store, g.writeLog,
            g.calls, Ev.readCache :: g.evs⟩

/-!
## The `file_lock` discipline (lines 126-141) with `asyncio.Lock` semantics

One storage path is modelled (a lock per path is independent).  `file_locks`
is `table : Option Nat`, holding the index of the current `asyncio.Lock`
object in `heap` — tasks keep direct references to lock objects
(`lock = file_locks[file_path]`), so an object popped from the table stays
reachable by its waiters.  `asyncio.Lock`: `acquire` takes a free lock with
no (uncancelled) waiters synchronously, otherwise appends the task to the
waiter queue and suspends; `release` clears `locked` and marks the first
waiter as woken (sets its future); the woken task, once scheduled, removes
itself from the queue and sets `locked`.  Between `release` and the woken
task's resumption `lock.locked()` is `False`.
-/

/-- An `asyncio.Lock` object: its `_locked` flag, FIFO waiter queue, and the
waiter whose future has been set by `_wake_up_first` but has not yet
resumed. -/
structure LockObj where
  locked : Bool
  waiters : List Nat
  woken : Option Nat
deriving DecidableEq

/-- Where a task is inside `async with file_lock(path)`. -/
inductive Phase where
  | ready : Phase
  | blocked : Phase
  | critical : Phase
  | finished : Phase
deriving DecidableEq

/-- A task: its phase and the lock object it obtained from the table when it
entered (`lock = file_locks[file_path]`). -/
structure TaskSt where
  phase : Phase
  myLock : Option Nat
deriving DecidableEq

/-- The process state for one path: the lock-object heap, the `file_locks`
table entry for the path, and the tasks. -/
structure LockSys where
  heap : List LockObj
  table : Option Nat
  tasks : List TaskSt
deriving DecidableEq

/-- Heap lookup with a dummy default (indices are always in range). -/
def getLock (h : List LockObj) (i : Nat) : LockObj :=
  h.getD i ⟨false, [], none⟩

/-- One atomic step of task `t` (atomic blocks contain no `await`):
* `ready`  — the `file_lock` entry: get-or-create the table's lock object,
  then `await lock.acquire()`: a free lock with an empty waiter queue is
  taken without suspending, otherwise the task joins the queue and blocks;
* `blocked` — runs only once woken: leave the queue, set `locked`, enter the
  critical section;
* `critical` — the end of the `yield` body plus the `finally` block:
  `if lock.locked(): lock.release()` (which wakes the first waiter), then
  `if not lock.locked(): file_locks.pop(file_path, None)` — after a release
  `locked()` is always `False`, so the entry is popped even when the queue
  is non-empty. -/
def lockStep (s : LockSys) (t : Nat) : LockSys :=
  match (s.tasks.getD t ⟨Phase.finished, none⟩).phase with
  | Phase.ready =>
    let (heap1, table1, lid) :=
      match s.table with
      | some l => (s.heap, some l, l)
      | none =>
        (s.heap ++ [⟨false, [], none⟩], some s.heap.length, s.heap.length)
    let lk := getLock heap1 lid
    if !lk.locked ∧ lk.waiters = [] then
      { heap := heap1.set lid { lk with locked := true }, table := table1,
        tasks := s.tasks.set t ⟨Phase.critical, some lid⟩ }
    else
      { heap := heap1.set lid { lk with waiters := lk.waiters ++ [t] },
        table := table1,
        tasks := s.tasks.set t ⟨Phase.blocked, some lid⟩ }
  | Phase.blocked =>
    match (s.tasks.getD t ⟨Phase.finished, none⟩).myLock with
    | none => s
    | some lid =>
      let lk := getLock s.heap lid
      if lk.woken = some t then
        { heap := s.heap.set lid
            { locked := true, waiters := lk.waiters.erase t, woken := none },
          table := s.table,
          tasks := s.tasks.set t ⟨Phase.critical, some lid⟩ }
      else s
  | Phase.critical =>
    match (s.tasks.getD t ⟨Phase.finished, none⟩).myLock with
    | none => s
    | some lid =>
      let lk := getLock s.heap lid
      let wk :=
        match lk.woken with
        | some w => some w
        | none => lk.waiters.head?
      let lk1 :=
        if lk.locked then { lk with locked := false, woken := wk } else lk
      { heap := s.heap.set lid lk1,
        table := if !lk1.locked then none else s.table,
        tasks := s.tasks.set t ⟨Phase.finished, some lid⟩ }
  | Phase.finished => s

/-- Run a schedule (a list of task indices). -/
def lockRun (s : LockSys) (sched : List Nat) : LockSys :=
  sched.foldl lockStep s

/-- Initial state: empty heap and table, `n` tasks about to enter
`file_lock` for the same path. -/
def lockInit (n : Nat) : LockSys :=
  ⟨[], none, List.replicate n ⟨Phase.ready, none⟩⟩

/-- How many tasks are inside the critical section for the path. -/
def inCritical (s : LockSys) : Nat :=
  (s.tasks.filter (fun tk => tk.phase == Phase.critical)).length

/-- Semaphore-bracketing check on an event trace: scanning left to right
with the current acquisition depth, every provider call must happen at
positive depth (i.e. while `API_SEMAPHORE` is held). -/
def guardedAux : List Ev → Nat → Bool
  | [], _ => true
  | Ev.semAcquire :: es, d => guardedAux es (d + 1)
  | Ev.semRelease :: es, d => guardedAux es (d - 1)
  | Ev.providerCall :: es, d => decide (0 < d) && guardedAux es d
  | _ :: es, d => guardedAux es d

/-- Every provider call of the trace runs under the semaphore. -/
def providerCallsGuarded (evs : List Ev) : Bool := guardedAux evs 0

/-!
## Concrete environments and documents used by witnesses and counterexamples
-/

/-- No two adjacent whitespace characters. -/
def noAdjacentSpace : List Char → Bool
  | [] => true
  | [_] => true
  | a :: b :: rest => !(pySpace a && pySpace b) && noAdjacentSpace (b :: rest)

/-- Narration-ready whitespace shape: no adjacent whitespace pair and no
leading or trailing whitespace. -/
def wsNormalizedB (s : String) : Bool :=
  noAdjacentSpace s.toList &&
  (match s.toList.head? with
    | none => true
    | some c => !(pySpace c)) &&
  (match s.toList.getLast? with
    | none => true
    | some c => !(pySpace c))

/-- Environment with an empty store, working writes, and a provider that
always fails. -/
def envNoChunks : Env :=
  { storage := fun _ => none,
    writeOk := fun _ => true,
    synth := fun _ => SynthOutcome.err,
    spath := fun p => p }

/-- Two concrete chunks with artifacts `[1, 2]` and `[3]` in a store that
also lacks the full track. -/
def envTwoChunks : Env :=
  { storage := fun p =>
      if p = "d/h1.mp3" then some [1, 2]
      else if p = "d/h2.mp3" then some [3] else none,
    writeOk := fun _ => true,
    synth := fun _ => SynthOutcome.err,
    spath := fun p => p }

/-- The two chunks whose artifacts are cached in `envTwoChunks`. -/
def twoChunks : List Chunk :=
  [⟨"section_0", "t0", none, "h1"⟩, ⟨"section_1", "t1", none, "h2"⟩]

/-- Environment with a zero-length artifact cached at `c.mp3`, a working
store and a provider that would return `[7]`. -/
def envEmptyArtifact : Env :=
  { storage := fun p => if p = "c.mp3" then some [] else none,
    writeOk := fun _ => true,
    synth := fun _ => SynthOutcome.ok [7],
    spath := fun p => p }

/-- Provider behaviour failing on the first two attempts and succeeding on
the third. -/
def synthFailFail7 : Nat → SynthOutcome :=
  fun k => if k < 2 then SynthOutcome.err else SynthOutcome.ok [7]

/-- Environment whose store rejects every write. -/
def envWriteFails : Env :=
  { storage := fun _ => none,
    writeOk := fun _ => false,
    synth := fun _ => SynthOutcome.ok [9],
    spath := fun p => p }

/-- Environment with an empty store, working writes, and a provider that
returns `[1]`. -/
def envFreshGen : Env :=
  { storage := fun _ => none,
    writeOk := fun _ => true,
    synth := fun _ => SynthOutcome.ok [1],
    spath := fun p => p }

/-!
## Helper lemmas
-/

/-- A successful retry-loop result is never the empty byte string (the empty
response raises a `ValueError` that counts as a failed attempt). -/
theorem synthRetryAux_ok_ne_nil (synth : Nat → SynthOutcome) :
    ∀ n a d b, (synthRetryAux synth n a d).res = Except.ok b → b ≠ [] := by
  intro n
  induction n with
  | zero => intro a d b h; simp [synthRetryAux] at h
  | succ m ih =>
    intro a d b h
    unfold synthRetryAux at h
    cases hA : synthAttemptResult synth a with
    | some b0 =>
      rw [hA] at h
      simp at h
      unfold synthAttemptResult at hA
      cases hS : synth a with
      | err => rw [hS] at hA; simp at hA
      | ok b1 =>
        rw [hS] at hA
        by_cases hb : b1 = [] <;> simp [hb] at hA
        rw [← h, ← hA]; exact hb
    | none =>
      rw [hA] at h
      by_cases hm : m = 0
      · simp [hm] at h
      · simp [hm] at h
        exact ih (a + 1) (d * 2) b h

/-- The event trace of the retry loop is a sequence of
acquire/call/release blocks: it leaves the guardedness scan at its incoming
depth. -/
theorem synthRetryAux_evs_guarded (synth : Nat → SynthOutcome) :
    ∀ n a d (tail : List Ev) (dep : Nat),
      guardedAux ((synthRetryAux synth n a d).evs ++ tail) dep =
        guardedAux tail dep := by
  intro n
  induction n with
  | zero => intro a d tail dep; simp [synthRetryAux]
  | succ m ih =>
    intro a d tail dep
    unfold synthRetryAux
    cases hA : synthAttemptResult synth a with
    | some b => simp [guardedAux]
    | none =>
      by_cases hm : m = 0
      · simp [hm, guardedAux]
      · simp only [hm, if_false]
        simp only [List.append_assoc, List.cons_append]
        simp [guardedAux, ih]

/-- C2. For every provider behaviour, the synthesis loop of
`get_or_generate_audio` makes at most 3 provider calls; the waits between
attempts follow the doubling schedule starting at 1 (so the wait after
failed attempt k is 2^(k-1)); failing on attempts 1 and 2 and succeeding on
attempt 3 yields the successful bytes with no error after waits [1, 2];
failing all 3 attempts yields the error (surfaced as the
`SynthesisUnavailable` HTTP error by `get_or_generate_audio`); and a
successful result is never the empty byte string. -/
theorem c2_retry_backoff (synth : Nat → SynthOutcome) :
    (synthWithRetry synth).calls ≤ 3 ∧
    (synthWithRetry synth).sleeps =
      (List.range (synthWithRetry synth).sleeps.length).map (fun k => 2 ^ k) ∧
    (synthWithRetry synth).sleeps.length ≤ 2 ∧
    (∀ b, synthAttemptResult synth 0 = none → synthAttemptResult synth 1 = none →
      synthAttemptResult synth 2 = some b →
        (synthWithRetry synth).res = Except.ok b ∧
        (synthWithRetry synth).sleeps = [1, 2] ∧
        (synthWithRetry synth).calls = 3) ∧
    (synthAttemptResult synth 0 = none → synthAttemptResult synth 1 = none →
      synthAttemptResult synth 2 = none →
        (synthWithRetry synth).res = Except.error () ∧
        (synthWithRetry synth).calls = 3) ∧
    (∀ b, (synthWithRetry synth).res = Except.ok b → b ≠ []) := by
  have hok : ∀ b, (synthWithRetry synth).res = Except.ok b → b ≠ [] :=
    fun b h => synthRetryAux_ok_ne_nil synth maxRetries 0 1 b h
  unfold synthWithRetry maxRetries
  cases h0 : synthAttemptResult synth 0 <;>
    cases h1 : synthAttemptResult synth 1 <;>
      cases h2 : synthAttemptResult synth 2 <;>
        simp_all [synthRetryAux, synthWithRetry, maxRetries, List.range_succ]

/-- Every chunk emitted by the heading-section loop carries the checksum of
its own sanitized text, has text length at least 3, and an id of the form
`section_<k>`. -/
theorem sectionChunks_mem (hash : String → String) (content : List Char) :
    ∀ (hs : List (Nat × List Char)) (i : Nat) (c : Chunk),
      c ∈ sectionChunks hash content i hs →
      c.checksum = hash c.text ∧ 3 ≤ c.text.length ∧
        ∃ k : Nat, c.id = "section_" ++ toString k := by
  intro hs
  induction hs with
  | nil => intro i c hc; simp [sectionChunks] at hc
  | cons hd tl ih =>
    intro i c hc
    rcases hd with ⟨start, htitle⟩
    simp only [sectionChunks, List.mem_append] at hc
    rcases hc with h1 | h2
    · split at h1
      · split at h1
        · rcases List.mem_singleton.mp h1 with rfl
          exact ⟨rfl, by assumption, ⟨i, rfl⟩⟩
        · exact absurd h1 (List.not_mem_nil c)
      · exact absurd h1 (List.not_mem_nil c)
    · exact ih (i + 1) c h2

/-- The ids emitted by the heading-section loop starting at index `i` form
a subsequence of `section_i, section_(i+1), ...` — 0-based, in document
order, each index at most once. -/
theorem sectionChunks_ids_sublist (hash : String → String) (content : List Char) :
    ∀ (hs : List (Nat × List Char)) (i : Nat),
      List.Sublist ((sectionChunks hash content i hs).map (fun c => c.id))
        ((List.range' i hs.length).map (fun k => "section_" ++ toString k)) := by
  intro hs
  induction hs with
  | nil => intro i; simp [sectionChunks]
  | cons hd tl ih =>
    intro i
    rcases hd with ⟨start, htitle⟩
    simp only [sectionChunks, List.length_cons, List.range'_succ, List.map_cons,
      List.map_append]
    split
    · split
      · simp only [List.map_cons, List.map_nil, List.singleton_append]
        exact List.Sublist.cons₂ _ (ih (i + 1))
      · simp only [List.map_nil, List.nil_append]
        exact List.Sublist.cons _ (ih (i + 1))
    · simp only [List.map_nil, List.nil_append]
      exact List.Sublist.cons _ (ih (i + 1))

/-- C7. Every chunk emitted by `split_content_into_chunks` has sanitized
text of length at least 3 (shorter segments are dropped) and a checksum
computed over that final sanitized text; when the body has no level-2
headings every emitted chunk is `full_content`; and when it has headings
the emitted ids form a subsequence of
`intro, section_0, section_1, ...` — i.e. an optional intro followed by
0-based section ids in document order. -/
theorem c7_split_segment_shape (hash : String → String) (content : String)
    (title description : Option String) :
    (∀ c ∈ split_content_into_chunks hash content title description,
      c.checksum = hash c.text ∧ 3 ≤ c.text.length) ∧
    (findH2 (normNl content.toList) = [] →
      ∀ c ∈ split_content_into_chunks hash content title description,
        c.id = "full_content") ∧
    (findH2 (normNl content.toList) ≠ [] →
      List.Sublist
        ((split_content_into_chunks hash content title description).map
          (fun c => c.id))
        ("intro" :: (List.range (findH2 (normNl content.toList)).length).map
          (fun i => "section_" ++ toString i))) := by
  cases hhs : findH2 (normNl content.toList) with
  | nil =>
    refine ⟨?_, ?_, ?_⟩
    · intro c hc
      simp only [split_content_into_chunks, hhs] at hc
      split at hc
      · split at hc
        · rcases List.mem_singleton.mp hc with rfl
          exact ⟨rfl, by assumption⟩
        · exact absurd hc (List.not_mem_nil c)
      · exact absurd hc (List.not_mem_nil c)
    · intro _ c hc
      simp only [split_content_into_chunks, hhs] at hc
      split at hc
      · split at hc
        · rcases List.mem_singleton.mp hc with rfl
          rfl
        · exact absurd hc (List.not_mem_nil c)
      · exact absurd hc (List.not_mem_nil c)
    · intro h; exact absurd rfl h
  | cons hd tl =>
    rcases hd with ⟨start0, t0⟩
    refine ⟨?_, ?_, ?_⟩
    · intro c hc
      simp only [split_content_into_chunks, hhs, List.mem_append] at hc
      rcases hc with h1 | h2
      · split at h1
        · split at h1
          · split at h1
            · rcases List.mem_singleton.mp h1 with rfl
              exact ⟨rfl, by assumption⟩
            · exact absurd h1 (List.not_mem_nil c)
          · exact absurd h1 (List.not_mem_nil c)
        · exact absurd h1 (List.not_mem_nil c)
      · have h3 := sectionChunks_mem hash (normNl content.toList)
          ((start0, t0) :: tl) 0 c h2
        exact ⟨h3.1, h3.2.1⟩
    · intro h
      exact absurd h (List.cons_ne_nil _ _)
    · intro _
      have hsec := sectionChunks_ids_sublist hash (normNl content.toList)
        ((start0, t0) :: tl) 0
      rw [List.range_eq_range']
      simp only [split_content_into_chunks, hhs, List.map_append]
      split
      · split
        · split
          · simp only [List.map_cons, List.map_nil, List.singleton_append]
            exact List.Sublist.cons₂ _ hsec
          · simp only [List.map_nil, List.nil_append]
            exact List.Sublist.cons _ hsec
        · simp only [List.map_nil, List.nil_append]
          exact List.Sublist.cons _ hsec
      · simp only [List.map_nil, List.nil_append]
        exact List.Sublist.cons _ hsec

/-- `noAdjacentSpace` as a `Chain'` over the no-double-space relation. -/
theorem noAdjacentSpace_iff_chain (l : List Char) :
    noAdjacentSpace l = true ↔
      List.Chain' (fun a b => ¬(pySpace a = true ∧ pySpace b = true)) l := by
  induction l with
  | nil => simp [noAdjacentSpace]
  | cons a rest ih =>
    cases rest with
    | nil => simp [noAdjacentSpace]
    | cons b rest2 =>
      rw [List.chain'_cons, noAdjacentSpace]
      cases hpa : pySpace a <;> cases hpb : pySpace b <;> simp [hpa, hpb, ih]

/-- The head of a collapse continuing an emitted run is never whitespace. -/
theorem collapseAux_true_head (l : List Char) :
    ∀ c, (collapseAux true l).head? = some c → pySpace c = false := by
  induction l with
  | nil => intro c h; simp [collapseAux] at h
  | cons x rest ih =>
    intro c h
    by_cases hx : pySpace x
    · rw [collapseAux, if_pos hx] at h
      exact ih c (by simpa using h)
    · rw [collapseAux, if_neg hx] at h
      simp at h
      subst h
      simpa using hx

/-- The whitespace-collapse pass never emits two adjacent whitespace
characters. -/
theorem noAdjacentSpace_collapseAux : ∀ (l : List Char) (b : Bool),
    noAdjacentSpace (collapseAux b l) = true := by
  intro l
  induction l with
  | nil => intro b; simp [collapseAux, noAdjacentSpace]
  | cons x rest ih =>
    intro b
    by_cases hx : pySpace x
    · rw [collapseAux, if_pos hx]
      cases b with
      | true => exact ih true
      | false =>
        simp only [Bool.false_eq_true, if_false]
        cases hY : collapseAux true rest with
        | nil => simp [noAdjacentSpace]
        | cons c cs =>
          rw [noAdjacentSpace]
          have hc : pySpace c = false :=
            collapseAux_true_head rest c (by rw [hY]; rfl)
          have := ih true
          rw [hY] at this
          simp [hc, this]
    · rw [collapseAux, if_neg hx]
      cases hY : collapseAux false rest with
      | nil => simp [noAdjacentSpace]
      | cons c cs =>
        rw [noAdjacentSpace]
        have := ih false
        rw [hY] at this
        simp [this, (by simpa using hx : pySpace x = false)]

/-- Stripping both ends yields an infix of the original list. -/
theorem pyStripL_part (l : List Char) : pyStripL l <:+: l := by
  unfold pyStripL
  have h1 : l.dropWhile pySpace <:+ l := List.dropWhile_suffix pySpace
  have h2 : (l.dropWhile pySpace).reverse.dropWhile pySpace <:+
      (l.dropWhile pySpace).reverse := List.dropWhile_suffix pySpace
  have h3 : ((l.dropWhile pySpace).reverse.dropWhile pySpace).reverse <+:
      l.dropWhile pySpace := by
    rw [← List.reverse_reverse (l.dropWhile pySpace)]
    exact ( List.reverse_prefix).mpr (by simpa using h2)
  exact List.IsInfix.trans ( List.IsPrefix.isInfix h3) ( List.IsSuffix.isInfix h1)

/-- `noAdjacentSpace` restricts to infixes. -/
theorem noAdjacentSpace_of_part {l l' : List Char} (h : l' <:+: l)
    (hl : noAdjacentSpace l = true) : noAdjacentSpace l' = true :=
  (noAdjacentSpace_iff_chain l').mpr
    ( List.Chain'.infix ((noAdjacentSpace_iff_chain l).mp hl) h)

/-- The head of the stripped list is never whitespace. -/
theorem pyStripL_head (l : List Char) :
    ∀ c, (pyStripL l).head? = some c → pySpace c = false := by
  intro c h
  unfold pyStripL at h
  rw [List.head?_reverse] at h
  rcases List.dropWhile_suffix (l := (l.dropWhile pySpace).reverse) pySpace with
    ⟨t, ht⟩
  have hne : (l.dropWhile pySpace).reverse.dropWhile pySpace ≠ [] := by
    intro hnil
    rw [hnil] at h
    simp at h
  have hgl : ((l.dropWhile pySpace).reverse.dropWhile pySpace).getLast? =
      ((l.dropWhile pySpace).reverse).getLast? := by
    conv_rhs => rw [← ht]
    exact (List.getLast?_append_of_ne_nil t hne).symm
  rw [hgl, List.getLast?_reverse] at h
  have := List.head?_dropWhile_not pySpace l
  rw [h] at this
  exact this

/-- The last character of the stripped list is never whitespace. -/
theorem pyStripL_getLast (l : List Char) :
    ∀ c, (pyStripL l).getLast? = some c → pySpace c = false := by
  intro c h
  unfold pyStripL at h
  rw [List.getLast?_reverse] at h
  have := List.head?_dropWhile_not pySpace (l.dropWhile pySpace).reverse
  rw [h] at this
  exact this

/-- The final pass of `clean_text_for_tts` leaves its output
whitespace-normalized: single internal spaces, trimmed ends. -/
theorem wsNormalizedB_collapseWhitespace (s : String) :
    wsNormalizedB (collapseWhitespace s) = true := by
  unfold wsNormalizedB collapseWhitespace
  have htl : (String.mk (pyStripL (collapseAux false s.toList))).toList =
      pyStripL (collapseAux false s.toList) := rfl
  rw [htl]
  refine Bool.and_eq_true_iff.mpr ⟨Bool.and_eq_true_iff.mpr ⟨?_, ?_⟩, ?_⟩
  · exact noAdjacentSpace_of_part (pyStripL_part _)
      (noAdjacentSpace_collapseAux _ false)
  · cases hh : (pyStripL (collapseAux false s.toList)).head? with
    | none => rfl
    | some c => simp [pyStripL_head _ c hh]
  · cases hh : (pyStripL (collapseAux false s.toList)).getLast? with
    | none => rfl
    | some c => simp [pyStripL_getLast _ c hh]

/-- C8. `clean_text_for_tts` is exactly the six rules applied in order
(heading collapse with pause marker, emphasis/strikethrough stripping, link
to display text, fenced-code-block removal, inline-code collapse,
whitespace collapse and trim); it maps the empty string to the empty
string; its output is always whitespace-normalized (single spaces,
trimmed); and the worked example exercises every rule.  It is a pure
function — determinism and absence of I/O are inherent to the embedding. -/
theorem c8_clean_text_rules_in_order :
    (∀ t, clean_text_for_tts t =
      collapseWhitespace (removeInlineCode (removeCodeBlocks (convertLinks
        (stripEmphasis (collapseHeadings t)))))) ∧
    clean_text_for_tts "" = "" ∧
    (∀ t, wsNormalizedB (clean_text_for_tts t) = true) ∧
    clean_text_for_tts "## Head\nA [b](u) `c` **d** ```x``` e" =
      "Head. . . . A b c d e" := by
  refine ⟨fun t => rfl, by decide, fun t => ?_, by decide⟩
  exact wsNormalizedB_collapseWhitespace
    (removeInlineCode (removeCodeBlocks (convertLinks
      (stripEmphasis (collapseHeadings t)))))

/-- Witness for C7: the single chunk of the headingless document `"x"`
carries the checksum of its own sanitized text and passes the length-3
guard. -/
theorem c7_split_segment_shape_witness :
    (⟨"full_content", "by Evan Sims. . . . . x", none,
        "Kby Evan Sims. . . . . x"⟩ : Chunk).checksum =
      (fun s => "K" ++ s)
        (⟨"full_content", "by Evan Sims. . . . . x", none,
          "Kby Evan Sims. . . . . x"⟩ : Chunk).text ∧
    3 ≤ (⟨"full_content", "by Evan Sims. . . . . x", none,
        "Kby Evan Sims. . . . . x"⟩ : Chunk).text.length :=
  (c7_split_segment_shape (fun s => "K" ++ s) "x" none none).1
    ⟨"full_content", "by Evan Sims. . . . . x", none,
      "Kby Evan Sims. . . . . x"⟩ (by decide)

/-- A string ending in the fixed attribution phrase is never empty. -/
theorem append_attribution_ne_empty (x : String) :
    x ++ "by Evan Sims. . . . . " ≠ "" := by
  intro h
  have hlen := congrArg String.length h
  rw [String.length_append] at hlen
  have h22 : ("by Evan Sims. . . . . " : String).length = 22 := rfl
  have h0 : ("" : String).length = 0 := rfl
  omega

/-- A string of length zero is the empty string. -/
theorem string_eq_empty_of_length_eq_zero (s : String)
    (h : s.length = 0) : s = "" := by
  cases s with
  | mk data =>
    cases data with
    | nil => rfl
    | cons c cs => simp [String.length] at h

/-- The `intro_prefix` always ends with the attribution phrase, so it is
never empty (hence `if intro_text:` always passes). -/
theorem introAttribution_ne_empty (t d : Option String) :
    introAttribution t d ≠ "" :=
  append_attribution_ne_empty _

/-- `intro_text = intro_prefix + …` is never empty. -/
theorem introText_ne_empty (t d : Option String) (s : String) :
    introAttribution t d ++ s ≠ "" := by
  intro h
  have hlen := congrArg String.length h
  rw [String.length_append] at hlen
  have h0 := introAttribution_ne_empty t d
  have hz : ("" : String).length = 0 := rfl
  have : (introAttribution t d).length = 0 := by omega
  exact h0 (string_eq_empty_of_length_eq_zero _ this)

/-- No section id is the intro id. -/
theorem section_id_ne_intro (k : Nat) : ("section_" ++ toString k) ≠ "intro" := by
  intro h
  have hlen := congrArg String.length h
  rw [String.length_append] at hlen
  have h8 : ("section_" : String).length = 8 := rfl
  have h5 : ("intro" : String).length = 5 := rfl
  omega

/-- The heading-section loop never emits a chunk with id `"intro"`. -/
theorem sectionChunks_no_intro (hash : String → String) (content : List Char)
    (hs : List (Nat × List Char)) (i : Nat) :
    (sectionChunks hash content i hs).any (fun c => c.id == "intro") = false := by
  rw [List.any_eq_false]
  intro c hc
  rcases (sectionChunks_mem hash content hs i c hc).2.2 with ⟨k, hid⟩
  simp [hid, section_id_ne_intro k]

/-- C9 (amended). For a body with at least one level-2 heading, an intro
segment is emitted iff the first heading starts at a positive offset in the
normalized body AND the sanitized intro text (attribution plus pre-heading
content) has length at least 3; the `if intro_text:` guard never fails
because the attribution suffix is always appended. -/
theorem c9_intro_iff_offset_positive (hash : String → String) (content : String)
    (title description : Option String)
    (h : findH2 (normNl content.toList) ≠ []) :
    ((split_content_into_chunks hash content title description).any
        (fun c => c.id == "intro") = true) ↔
      (0 < ((findH2 (normNl content.toList)).headD (0, [])).1 ∧
        3 ≤ (clean_text_for_tts (introAttribution title description ++
          String.mk (pyStripL ((normNl content.toList).take
            ((findH2 (normNl content.toList)).headD (0, [])).1)))).length) := by
  cases hhs : findH2 (normNl content.toList) with
  | nil => exact absurd hhs h
  | cons hd tl =>
    rcases hd with ⟨s0, t0⟩
    simp only [split_content_into_chunks, hhs, List.any_append,
      sectionChunks_no_intro, Bool.or_false, List.headD_cons]
    by_cases hs0 : 0 < s0
    · have hne := introText_ne_empty title description
        (String.mk (pyStripL ((normNl content.toList).take s0)))
      rw [if_pos hs0, if_pos hne]
      by_cases hlen : 3 ≤ (clean_text_for_tts (introAttribution title description ++
          String.mk (pyStripL ((normNl content.toList).take s0)))).length
      · rw [if_pos hlen]
        simp only [List.any_cons, List.any_nil, Bool.or_false, beq_self_eq_true,
          true_iff, eq_self_iff_true]
        exact ⟨hs0, hlen⟩
      · rw [if_neg hlen]
        simp only [List.any_nil]
        constructor
        · intro hfalse; exact absurd hfalse (by decide)
        · intro hand; exact absurd hand.2 hlen
    · rw [if_neg hs0]
      simp [hs0]

/-- Counterexample for C9 as stated: title `"```"` and description `"x"`
are present and the attribution alone sanitizes to length at least 3, the
body's first heading starts at offset 4 > 0, yet no intro segment is
emitted — the pre-heading backticks complete a fenced-code-block pattern
with the title and the whole intro text sanitizes to the empty string,
failing the length-3 guard. -/
theorem c9_intro_missing_despite_offset :
    0 < ((findH2 (normNl ("```\n## A\nB" : String).toList)).headD (0, [])).1 ∧
    3 ≤ (clean_text_for_tts
        (introAttribution (some "```") (some "x"))).length ∧
    (split_content_into_chunks (fun _ => "K") "```\n## A\nB"
        (some "```") (some "x")).any (fun c => c.id == "intro") = false := by
  decide

/-- Witness for C9 (amended): a body with only whitespace before its first
heading and a present title emits the attribution-only intro segment. -/
theorem c9_intro_iff_offset_positive_witness :
    (split_content_into_chunks (fun _ => "K") "\n## Hi\nBody"
        (some "T") none).any (fun c => c.id == "intro") = true :=
  (c9_intro_iff_offset_positive (fun _ => "K") "\n## Hi\nBody" (some "T") none
    (by decide)).mpr (by decide)

/-- Counterexample for C6. A document with an empty body yields no chunks,
and `generate_or_get_full_audio` then writes the empty concatenation to the
full-track path with no emptiness check: a zero-length audio artifact IS
written to storage by a generation path, and is even reported as a success
of size 0. -/
theorem c6_full_track_zero_length_write :
    split_content_into_chunks (fun _ => "") "" none none = [] ∧
    (generate_or_get_full_audio envNoChunks
        (split_content_into_chunks (fun _ => "") "" none none) "d" "s").writeLog =
      [("d/s_full.mp3", [])] ∧
    (generate_or_get_full_audio envNoChunks
        (split_content_into_chunks (fun _ => "") "" none none) "d" "s").store
        "d/s_full.mp3" = some [] ∧
    (generate_or_get_full_audio envNoChunks
        (split_content_into_chunks (fun _ => "") "" none none) "d" "s").res =
      Except.ok ("d/s_full.mp3", 0) := by
  decide

/-- C6 (amended). The two synthesis paths never write a zero-length
artifact: every write of `get_or_generate_audio` and of
`generate_chunk_audio` carries non-empty bytes, and when either fails (in
particular when synthesis fails on every retry) it performs no write and
leaves the store unchanged, so a subsequent cache read of the path finds
what was there before — Missing if it was missing.  (The full-track write
of `generate_or_get_full_audio` is the exception recorded in the
counterexample.) -/
theorem c6_synthesis_writes_nonempty (env : Env) (p : String) (k : Nat) :
    (∀ w ∈ (get_or_generate_audio env p).writeLog, w.2 ≠ []) ∧
    (∀ w ∈ (generate_chunk_audio env k p).writeLog, w.2 ≠ []) ∧
    (∀ e, (get_or_generate_audio env p).res = Except.error e →
      (get_or_generate_audio env p).store = env.storage ∧
      (get_or_generate_audio env p).writeLog = []) ∧
    (∀ e, (generate_chunk_audio env k p).res = Except.error e →
      (generate_chunk_audio env k p).store = env.storage ∧
      (generate_chunk_audio env k p).writeLog = []) := by
  have hchunk :
      (∀ w ∈ (generate_chunk_audio env k p).writeLog, w.2 ≠ []) ∧
      (∀ e, (generate_chunk_audio env k p).res = Except.error e →
        (generate_chunk_audio env k p).store = env.storage ∧
        (generate_chunk_audio env k p).writeLog = []) := by
    cases hst : env.storage (env.spath p) with
    | some b => simp [generate_chunk_audio, hst]
    | none =>
      cases hsy : env.synth k with
      | err => simp [generate_chunk_audio, hst, hsy]
      | ok b =>
        by_cases hb : b = []
        · simp [generate_chunk_audio, hst, hsy, hb]
        · by_cases hw : env.writeOk (env.spath p) <;>
            simp [generate_chunk_audio, hst, hsy, hb, hw]
  have hgen :
      (∀ w ∈ (get_or_generate_audio env p).writeLog, w.2 ≠ []) ∧
      (∀ e, (get_or_generate_audio env p).res = Except.error e →
        (get_or_generate_audio env p).store = env.storage ∧
        (get_or_generate_audio env p).writeLog = []) := by
    cases hcache : cacheLookup env.storage (env.spath p) with
    | some b => simp [get_or_generate_audio, hcache]
    | none =>
      cases hres : (synthWithRetry env.synth).res with
      | error e => simp [get_or_generate_audio, hcache, hres]
      | ok b =>
        have hb : b ≠ [] :=
          synthRetryAux_ok_ne_nil env.synth maxRetries 0 1 b hres
        by_cases hw : env.writeOk (env.spath p) <;>
          simp [get_or_generate_audio, hcache, hres, hw, hb]
  exact ⟨hgen.1, hchunk.1, hgen.2, hchunk.2⟩

/-- Reading every chunk-artifact path in order yields the concatenation of
the artifacts in chunk order. -/
theorem readAll_map_eq_flatten (env : Env) (audio_dir : String)
    (art : Chunk → List Nat) :
    ∀ chunks : List Chunk,
      (∀ c ∈ chunks,
        env.storage (env.spath (get_audio_path audio_dir c.checksum)) =
          some (art c)) →
      readAll (fun q => env.storage (env.spath q))
          (chunks.map (fun c => get_audio_path audio_dir c.checksum)) =
        some ((chunks.map art).flatten) := by
  intro chunks
  induction chunks with
  | nil => intro _; simp [readAll]
  | cons c cs ih =>
    intro h
    have hc := h c (List.mem_cons_self c cs)
    have hrest := ih (fun x hx => h x (List.mem_cons_of_mem c hx))
    simp [readAll, hc, hrest]

/-- C4. When the full track is not cached and every chunk artifact is
present (and non-empty), `generate_or_get_full_audio` writes and returns
exactly the byte-concatenation of the chunk artifacts in chunk order, and
the reported size is the sum of the artifact lengths. -/
theorem c4_full_track_is_concatenation (env : Env) (chunks : List Chunk)
    (audio_dir page_slug : String) (art : Chunk → List Nat)
    (hfull : env.storage (env.spath (get_full_audio_path audio_dir page_slug)) =
      none)
    (hart : ∀ c ∈ chunks,
      env.storage (env.spath (get_audio_path audio_dir c.checksum)) =
        some (art c) ∧ art c ≠ [])
    (hw : env.writeOk (env.spath (get_full_audio_path audio_dir page_slug)) =
      true) :
    (generate_or_get_full_audio env chunks audio_dir page_slug).res =
      Except.ok (get_full_audio_path audio_dir page_slug,
        ((chunks.map art).flatten).length) ∧
    (generate_or_get_full_audio env chunks audio_dir page_slug).store
        (env.spath (get_full_audio_path audio_dir page_slug)) =
      some ((chunks.map art).flatten) ∧
    (generate_or_get_full_audio env chunks audio_dir page_slug).writeLog =
      [(env.spath (get_full_audio_path audio_dir page_slug),
        (chunks.map art).flatten)] ∧
    ((chunks.map art).flatten).length =
      (chunks.map (fun c => (art c).length)).sum := by
  have hmissing :
      (chunks.map (fun c => get_audio_path audio_dir c.checksum)).filter
        (fun q => (env.storage (env.spath q)).isNone) = [] := by
    rw [List.filter_eq_nil_iff]
    intro q hq
    rcases List.mem_map.mp hq with ⟨c, hc, rfl⟩
    simp [(hart c hc).1]
  have hread := readAll_map_eq_flatten env audio_dir art chunks
    (fun c hc => (hart c hc).1)
  have hlen : ((chunks.map art).flatten).length =
      (chunks.map (fun c => (art c).length)).sum := by
    rw [List.length_flatten, List.map_map]
    rfl
  refine ⟨?_, ?_, ?_, hlen⟩ <;>
    simp [generate_or_get_full_audio, hfull, hmissing, genMissing, hread, hw,
      updateStore]

/-- Witness for C4: the full track of the two cached chunks is `[1, 2, 3]`
of size 3 = 2 + 1. -/
theorem c4_full_track_is_concatenation_witness :
    (generate_or_get_full_audio envTwoChunks twoChunks "d" "s").res =
      Except.ok (get_full_audio_path "d" "s",
        ((twoChunks.map (fun c => if c.checksum = "h1" then [1, 2] else [3])).flatten).length) ∧
    (generate_or_get_full_audio envTwoChunks twoChunks "d" "s").store
        (envTwoChunks.spath (get_full_audio_path "d" "s")) =
      some ((twoChunks.map (fun c => if c.checksum = "h1" then [1, 2] else [3])).flatten) ∧
    (generate_or_get_full_audio envTwoChunks twoChunks "d" "s").writeLog =
      [(envTwoChunks.spath (get_full_audio_path "d" "s"),
        (twoChunks.map (fun c => if c.checksum = "h1" then [1, 2] else [3])).flatten)] ∧
    ((twoChunks.map (fun c => if c.checksum = "h1" then [1, 2] else [3])).flatten).length =
      (twoChunks.map (fun c =>
        ((fun c => if c.checksum = "h1" then [1, 2] else [3]) c).length)).sum :=
  c4_full_track_is_concatenation envTwoChunks twoChunks "d" "s"
    (fun c => if c.checksum = "h1" then [1, 2] else [3])
    (by decide) (by decide) (by decide)

/-- Witness for C6 (amended): with an always-failing provider,
`get_or_generate_audio` leaves the store untouched and writes nothing. -/
theorem c6_synthesis_writes_nonempty_witness :
    (get_or_generate_audio envNoChunks "p.mp3").store = envNoChunks.storage ∧
    (get_or_generate_audio envNoChunks "p.mp3").writeLog = [] :=
  (c6_synthesis_writes_nonempty envNoChunks "p.mp3" 0).2.2.1
    GenError.synthesisUnavailable (by decide)

/-- C1. The `file_lock` discipline does NOT keep two callers out of the
critical section for one path.  Three tasks, one path, the schedule: task 0
enters and acquires; task 1 enters and blocks on the same lock object; task
0 exits — its `finally` releases (waking task 1) and then, because
`lock.locked()` is `False` right after release, pops the path's table entry
even though task 1 is still waiting; task 2 enters, finds no table entry,
creates a fresh lock and acquires it immediately; task 1 resumes on the old
popped lock object.  Tasks 1 and 2 are now both inside the critical section
for the same path. -/
theorem c1_file_lock_race_two_in_critical :
    inCritical (lockRun (lockInit 3) [0, 1, 0, 2, 1]) = 2 ∧
    ((lockRun (lockInit 3) [0, 1, 0, 2, 1]).tasks.getD 1
        ⟨Phase.finished, none⟩).phase = Phase.critical ∧
    ((lockRun (lockInit 3) [0, 1, 0, 2, 1]).tasks.getD 2
        ⟨Phase.finished, none⟩).phase = Phase.critical ∧
    ((lockRun (lockInit 3) [0, 1, 0, 2, 1]).tasks.getD 1
        ⟨Phase.finished, none⟩).myLock ≠
      ((lockRun (lockInit 3) [0, 1, 0, 2, 1]).tasks.getD 2
        ⟨Phase.finished, none⟩).myLock := by
  decide

/-- C3. A zero-length stored artifact is NOT treated as Missing by
`generate_chunk_audio`: its cache check discards the read result, returns
success without a single provider call and leaves the empty artifact in
place — while `get_or_generate_audio` on the same store does treat the
empty body as a miss and regenerates.  (The comment on the
`except StorageError` branch, "File doesn't exist or is empty, continue to
generation", documents the intended behaviour that the code lacks:
`read_file` returns an empty body on HTTP 200 rather than raising.) -/
theorem c3_empty_artifact_counted_as_success :
    (generate_chunk_audio envEmptyArtifact 0 "c.mp3").res = Except.ok () ∧
    (generate_chunk_audio envEmptyArtifact 0 "c.mp3").calls = 0 ∧
    (generate_chunk_audio envEmptyArtifact 0 "c.mp3").store "c.mp3" = some [] ∧
    (get_or_generate_audio envEmptyArtifact "c.mp3").calls = 1 ∧
    (get_or_generate_audio envEmptyArtifact "c.mp3").res = Except.ok [7] := by
  decide

/-- Witness for C2: under `synthFailFail7` the loop returns the bytes of
attempt 3 with waits 1 and 2. -/
theorem c2_retry_backoff_witness :
    (synthWithRetry synthFailFail7).res = Except.ok [7] ∧
    (synthWithRetry synthFailFail7).sleeps = [1, 2] ∧
    (synthWithRetry synthFailFail7).calls = 3 :=
  (c2_retry_backoff synthFailFail7).2.2.2.1 [7] (by decide) (by decide) (by decide)

/-- C10. When the cache misses, synthesis succeeds and the subsequent cache
write raises `StorageError`, `get_or_generate_audio` swallows the error and
still yields the synthesized bytes; the store is untouched, so the success
response does not imply the artifact is cached at its path. -/
theorem c10_write_failure_swallowed (env : Env) (p : String) (b : List Nat)
    (hmiss : env.storage (env.spath p) = none ∨ env.storage (env.spath p) = some [])
    (hok : (synthWithRetry env.synth).res = Except.ok b)
    (hw : env.writeOk (env.spath p) = false) :
    (get_or_generate_audio env p).res = Except.ok b ∧
    (get_or_generate_audio env p).store = env.storage ∧
    (get_or_generate_audio env p).writeLog = [] := by
  rcases hmiss with hm | hm <;>
    simp [get_or_generate_audio, cacheLookup, hm, hok, hw]

/-- Witness for C10: bytes are yielded although nothing was cached. -/
theorem c10_write_failure_swallowed_witness :
    (get_or_generate_audio envWriteFails "p.mp3").res = Except.ok [9] ∧
    (get_or_generate_audio envWriteFails "p.mp3").store = envWriteFails.storage ∧
    (get_or_generate_audio envWriteFails "p.mp3").writeLog = [] :=
  c10_write_failure_swallowed envWriteFails "p.mp3" [9] (Or.inl rfl)
    (by decide) rfl

/-- Counterexample for C5. The provider call of `generate_chunk_audio` is
made while `API_SEMAPHORE` is at depth 0 — the function never acquires the
semaphore — so the claimed process-wide in-flight bound does not cover this
code path. -/
theorem c5_chunk_audio_call_unguarded :
    (generate_chunk_audio envFreshGen 0 "p.mp3").evs.contains Ev.providerCall = true ∧
    providerCallsGuarded (generate_chunk_audio envFreshGen 0 "p.mp3").evs = false := by
  decide

/-- C5 (amended). The bound holds on the `get_or_generate_audio` path:
every provider call in its trace happens while holding the 3-permit
`API_SEMAPHORE`, whatever the environment. -/
theorem c5_get_or_generate_audio_guarded (env : Env) (p : String) :
    providerCallsGuarded (get_or_generate_audio env p).evs = true ∧
    apiSemaphoreLimit = 3 := by
  refine ⟨?_, rfl⟩
  have hbase : ∀ tail : List Ev,
      guardedAux ((synthWithRetry env.synth).evs ++ tail) 0 = guardedAux tail 0 :=
    fun tail => synthRetryAux_evs_guarded env.synth maxRetries 0 1 tail 0
  cases hcache : cacheLookup env.storage (env.spath p) with
  | some b => simp [get_or_generate_audio, hcache, providerCallsGuarded, guardedAux]
  | none =>
    cases hres : (synthWithRetry env.synth).res with
    | error e =>
      simp [get_or_generate_audio, hcache, hres, providerCallsGuarded, guardedAux]
      simpa [guardedAux] using hbase []
    | ok b =>
      by_cases hw : env.writeOk (env.spath p)
      · simp [get_or_generate_audio, hcache, hres, hw, providerCallsGuarded,
          guardedAux]
        simpa [guardedAux] using hbase [Ev.writeStore]
      · simp [get_or_generate_audio, hcache, hres, hw, providerCallsGuarded,
          guardedAux]
        simpa [guardedAux] using hbase []
